import Mathlib

/-!
Verification development for the jsoncons JMESPath query engine
(`include/jsoncons_ext/jmespath/jmespath.hpp`).

The C++ source is shallowly embedded:

* JSON values (the external JSON model of the spec, §6) become the
  inductive `JsonV`; numbers are modelled as integers, which covers every
  value exercised here.
* the `slice` struct and its `get_start` / `get_end` / `step` members are
  translated field by field (note the source subtracts a negative
  start/end from the size instead of adding it);
* every `selector_base` subclass becomes a constructor of `Selector`, and
  each `evaluate` override becomes one arm of the fueled evaluator
  `evalF`.  Fuel is consumed at every evaluator entry and every loop
  iteration, so `evalF` is structurally recursive and computable by the
  kernel; a result of `.div` means the fuel ran out, and
  `∀ n, evalF n … = .div` states that the C++ code does not terminate.
* A C++ exception escaping a selector (the bounds-checked `at()` of the
  JSON model throwing `out_of_range`) is the result `.exn`.
* the `std::error_code& ec` threaded through `evaluate` is the
  `Option ErrC` state carried in every result.
-/

/-- JSON values, the external JSON model of the spec (§6).  Object
members are kept in insertion order, as the model's iteration order.
Numbers are modelled as integers (the development only exercises integral
numbers). -/
inductive JsonV : Type where
  | null : JsonV
  | bool : Bool → JsonV
  | num : Int → JsonV
  | str : List Char → JsonV
  | arr : List JsonV → JsonV
  | obj : List (List Char × JsonV) → JsonV
deriving Repr

namespace JsonV

/-- `is_null()` of the JSON model. -/
def is_null : JsonV → Bool
  | .null => true
  | _ => false

/-- `is_array()` of the JSON model. -/
def is_array : JsonV → Bool
  | .arr _ => true
  | _ => false

/-- `is_object()` of the JSON model. -/
def is_object : JsonV → Bool
  | .obj _ => true
  | _ => false

/-- `is_number()` of the JSON model. -/
def is_number : JsonV → Bool
  | .num _ => true
  | _ => false

end JsonV

/-- `contains(key)` on an object's member list. -/
def containsKey (ms : List (List Char × JsonV)) (k : List Char) : Bool :=
  ms.any (fun m => m.1 == k)

/-- `at(key)` on an object's member list: the first member with that key. -/
def atKey (ms : List (List Char × JsonV)) (k : List Char) : JsonV :=
  match ms.find? (fun m => m.1 == k) with
  | some m => m.2
  | none => JsonV.null

/-- `try_emplace(key, value)`: insert only when the key is absent. -/
def tryEmplace (ms : List (List Char × JsonV)) (k : List Char) (v : JsonV) :
    List (List Char × JsonV) :=
  if containsKey ms k then ms else ms ++ [(k, v)]

/-- `struct slice` of the source (named `Slice` here, `slice` being taken in Lean): `start_`, optional `end_`, `step_`. -/
structure Slice where
  start_ : Int
  end_ : Option Int
  step_ : Int
deriving Repr

namespace Slice

/-- `slice::get_start(size)` as written in the source:
`start_ >= 0 ? start_ : size - start_` (note the subtraction). -/
def get_start (s : Slice) (size : Nat) : Int :=
  if 0 ≤ s.start_ then s.start_ else (size : Int) - s.start_

/-- `slice::get_end(size)` as written in the source: when present,
`end_ >= 0 ? end_ : size - end_` (again a subtraction), capped above by
`size`; otherwise `size`. -/
def get_end (s : Slice) (size : Nat) : Int :=
  match s.end_ with
  | some e =>
      let len : Int := if 0 ≤ e then e else (size : Int) - e
      if len ≤ (size : Int) then len else (size : Int)
  | none => (size : Int)

/-- `slice::step()`: returns `step_` unchanged ("Allow negative"). -/
def step (s : Slice) : Int := s.step_

end Slice

/-- Start resolution as the spec (§3) words it:
`start_resolved = start ≥ 0 ? start : max(0, n + start)`.  Kept separate
from `Slice.get_start` so the two can be compared. -/
def specStartResolved (start : Int) (n : Nat) : Int :=
  if 0 ≤ start then start else max 0 ((n : Int) + start)

/-- End resolution as the spec (§3) words it:
`end_resolved = end.present ? clamp(end ≥ 0 ? end : n + end, 0, n) : n`. -/
def specEndResolved (e : Option Int) (n : Nat) : Int :=
  match e with
  | some ev => min (max (if 0 ≤ ev then ev else (n : Int) + ev) 0) (n : Int)
  | none => (n : Int)

/-- The error codes of `jmespath_errc` that the engine can set. -/
inductive ErrC : Type where
  | expected_identifier
  | expected_index
  | expected_right_bracket
  | expected_right_brace
  | expected_colon
  | expected_dot
  | expected_comparator
  | expected_key
  | invalid_number
  | function_name_not_found
  | invalid_argument
  | unexpected_end_of_input
  | unidentified_error
deriving Repr, DecidableEq

/-- The `std::error_code` cell threaded through evaluation: `none` when
clear, `some e` after a selector stored `e`. -/
abbrev Ec := Option ErrC

/-- The comparator tags of the filter selector (`cmp_eq` … `cmp_ne`). -/
inductive CmpK : Type where
  | ceq | cne | clt | clte | cgt | cgte
deriving Repr, DecidableEq

/-- The selector taxonomy: one constructor per `selector_base` subclass of
the source.  `function_selector` keeps only its argument selectors: the
function registry of this source holds exactly `sort_by`, so the resolved
callable is always `sort_by`. -/
inductive Selector : Type where
  | sub_expression : List Selector → Selector
  | name_expression : List Char → Selector → Selector
  | list_projection : Selector → List Selector → Selector
  | pipe_selector : Selector → List Selector → Selector
  | flatten_projection : Selector → List Selector → Selector
  | object_projection : Selector → List Selector → Selector
  | identifier : List Char → Selector
  | json_value : JsonV → Selector
  | index_selector : Int → Selector
  | slice_selector : Slice → Selector
  | filter_selector : CmpK → Selector → List Selector → Selector
  | multi_select_list : List Selector → Selector
  | multi_select_hash : List (List Char × Selector) → Selector
  | function_selector : List Selector → Selector
deriving Repr

/-- `add_selector` dispatch: composite nodes append the child, the
remaining nodes ignore it, exactly as the overrides in the source do. -/
def addSelector (s : Selector) (c : Selector) : Selector :=
  match s with
  | .sub_expression cs => .sub_expression (cs ++ [c])
  | .list_projection l r => .list_projection l (r ++ [c])
  | .pipe_selector l r => .pipe_selector l (r ++ [c])
  | .flatten_projection l r => .flatten_projection l (r ++ [c])
  | .object_projection l r => .object_projection l (r ++ [c])
  | .filter_selector k l r => .filter_selector k l (r ++ [c])
  | .function_selector args => .function_selector (args ++ [c])
  | s => s

/-- Result of evaluating a selector: an escaped C++ exception, exhausted
fuel (the code has not finished within the allotted steps), or a value
together with the `error_code` cell. -/
inductive EvalRes : Type where
  | exn : EvalRes
  | div : EvalRes
  | ok : JsonV → Ec → EvalRes
deriving Repr

/-- Result of a loop collecting JSON values. -/
inductive ListRes : Type where
  | exn : ListRes
  | div : ListRes
  | ok : List JsonV → Ec → ListRes
deriving Repr

/-- Result of the multi-select-hash loop. -/
inductive HashRes : Type where
  | exn : HashRes
  | div : HashRes
  | ok : List (List Char × JsonV) → Ec → HashRes
deriving Repr

/-- Result of the key-extraction loop of `sort_by` (key paired with the
element it was computed from). -/
inductive PairsRes : Type where
  | exn : PairsRes
  | div : PairsRes
  | ok : List (JsonV × JsonV) → Ec → PairsRes
deriving Repr

/-- The forward slice loop `for (j = start; j < end; j += step)`.  One
fuel unit per iteration; `none` means the fuel ran out before the loop
condition became false — with `step = 0` and `start < end` it never does,
which is exactly the source's non-termination. -/
def sliceFwdF : Nat → Int → Int → Int → Option (List Int)
  | n, j, e, step =>
    if j < e then
      match n with
      | 0 => none
      | Nat.succ m => (sliceFwdF m (j + step) e step).map (fun l => j :: l)
    else some []

/-- The backward slice loop `for (j = end-1; j >= start; j += step)`
(taken only when `step < 0`). -/
def sliceBwdF : Nat → Int → Int → Int → Option (List Int)
  | n, j, s, step =>
    if s ≤ j then
      match n with
      | 0 => none
      | Nat.succ m => (sliceBwdF m (j + step) s step).map (fun l => j :: l)
    else some []

/-- One-level flattening of the flatten projection: array elements are
spliced in, other elements pass through. -/
def flattenOne (items : List JsonV) : List JsonV :=
  match items with
  | [] => []
  | .arr xs :: rest => xs ++ flattenOne rest
  | x :: rest => x :: flattenOne rest

/-- Element access `val[j]` of the slice loop (always in bounds there). -/
def atIdx (items : List JsonV) (j : Int) : JsonV :=
  items.getD j.toNat JsonV.null

mutual

/-- Structural equality `operator==` of the JSON model, fueled so that the
definition stays kernel-computable (`none` = fuel exhausted). -/
def jeqF : Nat → JsonV → JsonV → Option Bool
  | 0, _, _ => none
  | Nat.succ n, v, w =>
    match v, w with
    | .null, .null => some true
    | .bool a, .bool b => some (a == b)
    | .num a, .num b => some (a == b)
    | .str a, .str b => some (a == b)
    | .arr as, .arr bs => jeqListF n as bs
    | .obj ms, .obj ns => jeqMembersF n ms ns
    | _, _ => some false

def jeqListF : Nat → List JsonV → List JsonV → Option Bool
  | 0, _, _ => none
  | Nat.succ _, [], [] => some true
  | Nat.succ n, a :: as, b :: bs =>
    match jeqF n a b with
    | none => none
    | some false => some false
    | some true => jeqListF n as bs
  | Nat.succ _, _, _ => some false

def jeqMembersF : Nat → List (List Char × JsonV) → List (List Char × JsonV) → Option Bool
  | 0, _, _ => none
  | Nat.succ _, [], [] => some true
  | Nat.succ n, a :: as, b :: bs =>
    if a.1 == b.1 then
      match jeqF n a.2 b.2 with
      | none => none
      | some false => some false
      | some true => jeqMembersF n as bs
    else some false
  | Nat.succ _, _, _ => some false

end

/-- Rank of a JSON type in the model's cross-type total order. -/
def typeRank : JsonV → Nat
  | .null => 0
  | .bool _ => 1
  | .num _ => 2
  | .str _ => 3
  | .arr _ => 4
  | .obj _ => 5

/-- Lexicographic order on character lists (string comparison of the
JSON model). -/
def charListLt : List Char → List Char → Bool
  | [], [] => false
  | [], _ :: _ => true
  | _ :: _, [] => false
  | a :: as, b :: bs => if a = b then charListLt as bs else decide (a < b)

mutual

/-- `operator<` of the JSON model: compares the type rank first, then the
content; only the numeric case is exercised by this development.  Fueled
for kernel computability. -/
def jltF : Nat → JsonV → JsonV → Option Bool
  | 0, _, _ => none
  | Nat.succ n, v, w =>
    if typeRank v < typeRank w then some true
    else if typeRank w < typeRank v then some false
    else
      match v, w with
      | .null, .null => some false
      | .bool a, .bool b => some (!a && b)
      | .num a, .num b => some (decide (a < b))
      | .str a, .str b => some (charListLt a b)
      | .arr as, .arr bs => jltListF n as bs
      | .obj ms, .obj ns => jltMembersF n ms ns
      | _, _ => some false

def jltListF : Nat → List JsonV → List JsonV → Option Bool
  | 0, _, _ => none
  | Nat.succ _, [], [] => some false
  | Nat.succ _, [], _ :: _ => some true
  | Nat.succ _, _ :: _, [] => some false
  | Nat.succ n, a :: as, b :: bs =>
    match jeqF n a b with
    | none => none
    | some true => jltListF n as bs
    | some false => jltF n a b

def jltMembersF : Nat → List (List Char × JsonV) → List (List Char × JsonV) → Option Bool
  | 0, _, _ => none
  | Nat.succ _, [], [] => some false
  | Nat.succ _, [], _ :: _ => some true
  | Nat.succ _, _ :: _, [] => some false
  | Nat.succ n, a :: as, b :: bs =>
    if a.1 == b.1 then
      match jeqF n a.2 b.2 with
      | none => none
      | some true => jltMembersF n as bs
      | some false => jltF n a.2 b.2
    else some (charListLt a.1 b.1)

end

/-- The six comparator structs of the filter selector, returning the
`optional<bool>` of the source: ordering comparators yield `none`
("undefined") unless both operands are numbers; the outer `Option` is
fuel exhaustion inside `operator==`. -/
def applyCmpF (n : Nat) (k : CmpK) (l r : JsonV) : Option (Option Bool) :=
  match k with
  | .ceq => (jeqF n l r).map (fun b => some b)
  | .cne => (jeqF n l r).map (fun b => some (!b))
  | .clt =>
      some (if l.is_number && r.is_number then
              match l, r with
              | .num a, .num b => some (decide (a < b))
              | _, _ => none
            else none)
  | .clte =>
      some (if l.is_number && r.is_number then
              match l, r with
              | .num a, .num b => some (decide (a ≤ b))
              | _, _ => none
            else none)
  | .cgt =>
      some (if l.is_number && r.is_number then
              match l, r with
              | .num a, .num b => some (decide (b < a))
              | _, _ => none
            else none)
  | .cgte =>
      some (if l.is_number && r.is_number then
              match l, r with
              | .num a, .num b => some (decide (b ≤ a))
              | _, _ => none
            else none)

/-- Stable insertion into a list sorted by the strict comparator `lt`:
`x` is placed before the first element not strictly below it.  Used only
to spell out, on the spec's side, what a *stable* sort would return. -/
def insertStable (lt : α → α → Bool) (x : α) : List α → List α
  | [] => [x]
  | y :: ys => if lt y x then y :: insertStable lt x ys else x :: y :: ys

/-- A stable comparison sort (insertion sort), the spec's side of the
`sort_by` stability question. -/
def stableSortSpec (lt : α → α → Bool) : List α → List α
  | [] => []
  | x :: xs => insertStable lt x (stableSortSpec lt xs)

/-- Monadic stable insertion with a fueled comparator (`none` = the
comparator ran out of fuel). -/
def insertSortedM (lt : α → α → Option Bool) (x : α) : List α → Option (List α)
  | [] => some [x]
  | y :: ys =>
    match lt y x with
    | none => none
    | some true =>
        match insertSortedM lt x ys with
        | some l => some (y :: l)
        | none => none
    | some false => some (x :: y :: ys)

/-- Monadic insertion sort by a fueled comparator.  It models one
execution that `std::sort` with the same comparator is allowed to
produce (the C++ standard leaves the order of comparator calls, and the
relative order of equivalent elements, unspecified; see
`cppSortAdmissible` for the full contract). -/
def sortM (lt : α → α → Option Bool) : List α → Option (List α)
  | [] => some []
  | x :: xs =>
    match sortM lt xs with
    | some l => insertSortedM lt x l
    | none => none

mutual

/-- The evaluator: one arm per `evaluate` override in the source.  Fuel
is consumed at every entry, so the definition is structural in the fuel
and computable by `rfl`/`decide`. -/
def evalF : Nat → Selector → JsonV → Ec → EvalRes
  | 0, _, _, _ => .div
  | Nat.succ n, s, v, ec =>
    match s with
    | .sub_expression cs => evalChainF n cs v ec
    | .name_expression name c =>
        match evalF n c v ec with
        | .ok r ec1 => .ok (.obj (tryEmplace [] name r)) ec1
        | .exn => .exn
        | .div => .div
    | .list_projection lhs rhs =>
        match evalF n lhs v ec with
        | .ok u ec1 =>
            match u with
            | .arr items =>
                match evalProjF n rhs items ec1 with
                | .ok vs ec2 => .ok (.arr vs) ec2
                | .exn => .exn
                | .div => .div
            | _ => .ok .null ec1
        | .exn => .exn
        | .div => .div
    | .pipe_selector lhs rhs =>
        match evalF n lhs v ec with
        | .ok u ec1 =>
            if u.is_array then evalChainF n rhs u ec1 else .ok .null ec1
        | .exn => .exn
        | .div => .div
    | .flatten_projection lhs rhs =>
        match evalF n lhs v ec with
        | .ok u ec1 =>
            match u with
            | .arr items =>
                match evalProjF n rhs (flattenOne items) ec1 with
                | .ok vs ec2 => .ok (.arr vs) ec2
                | .exn => .exn
                | .div => .div
            | _ => .ok .null ec1
        | .exn => .exn
        | .div => .div
    | .object_projection lhs rhs =>
        match evalF n lhs v ec with
        | .ok u ec1 =>
            match u with
            | .obj ms =>
                match evalProjF n rhs (ms.map (fun m => m.2)) ec1 with
                | .ok vs ec2 => .ok (.arr vs) ec2
                | .exn => .exn
                | .div => .div
            | _ => .ok .null ec1
        | .exn => .exn
        | .div => .div
    | .identifier name =>
        match v with
        | .obj ms =>
            if containsKey ms name then .ok (atKey ms name) ec
            else .ok .null ec
        | .arr items =>
            .ok (.arr (items.filterMap (fun it =>
              match it with
              | .obj ms => if containsKey ms name then some (atKey ms name) else none
              | _ => none))) ec
        | _ => .ok .null ec
    | .json_value j => .ok j ec
    | .index_selector i =>
        match v with
        | .arr items =>
            let slen : Int := (items.length : Int)
            if 0 ≤ i ∧ i < slen then .ok (atIdx items i) ec
            else if i < 0 ∧ slen + i < slen then
              -- `val.at(static_cast<std::size_t>(slen + index_))`: a
              -- negative sum wraps to a huge size_t, and the checked
              -- `at()` throws `out_of_range`.
              if 0 ≤ slen + i then .ok (atIdx items (slen + i)) ec else .exn
            else .ok .null ec
        | _ => .ok .null ec
    | .slice_selector sl =>
        match v with
        | .arr items =>
            let start := sl.get_start items.length
            let e := sl.get_end items.length
            if 0 ≤ sl.step then
              match sliceFwdF n start e sl.step with
              | some idxs => .ok (.arr (idxs.map (atIdx items))) ec
              | none => .div
            else
              match sliceBwdF n (e - 1) start sl.step with
              | some idxs => .ok (.arr (idxs.map (atIdx items))) ec
              | none => .div
        | _ => .ok .null ec
    | .filter_selector k lhs rhs =>
        match v with
        | .arr items =>
            match evalFilterF n k lhs rhs items ec with
            | .ok vs ec1 => .ok (.arr vs) ec1
            | .exn => .exn
            | .div => .div
        | _ => .ok .null ec
    | .multi_select_list sels =>
        match v with
        | .obj _ =>
            match evalMultiF n sels v ec with
            | .ok vs ec1 => .ok (.arr vs) ec1
            | .exn => .exn
            | .div => .div
        | _ => .ok .null ec
    | .multi_select_hash pairs =>
        match v with
        | .obj _ =>
            match evalHashF n pairs v ec with
            | .ok ms ec1 =>
                .ok (.obj (ms.foldl (fun acc m => tryEmplace acc m.1 m.2) [])) ec1
            | .exn => .exn
            | .div => .div
        | _ => .ok .null ec
    | .function_selector args =>
        -- the registry holds exactly `sort_by`, so the resolved callable
        -- is the static `sort_by` of the source
        match args with
        | [s0, s1] =>
            match evalF n s0 v ec with
            | .ok u ec1 =>
                match u with
                | .arr items =>
                    match evalKeysF n s1 items ec1 with
                    | .ok pairs ec2 =>
                        match sortM (fun p q => jltF n p.1 q.1) pairs with
                        | some sorted => .ok (.arr (sorted.map (fun p => p.2))) ec2
                        | none => .div
                    | .exn => .exn
                    | .div => .div
                | _ => .ok .null (some .invalid_argument)
            | .exn => .exn
            | .div => .div
        | _ => .ok .null (some .invalid_argument)

/-- `sub_expression::evaluate`: thread the value through the children
left to right. -/
def evalChainF : Nat → List Selector → JsonV → Ec → EvalRes
  | _, [], v, ec => .ok v ec
  | 0, _ :: _, _, _ => .div
  | Nat.succ n, c :: cs, v, ec =>
    match evalF n c v ec with
    | .ok r ec1 => evalChainF n cs r ec1
    | .exn => .exn
    | .div => .div

/-- The projection loop shared by list/flatten/object projections: each
item is threaded through the rhs chain and non-null results are kept. -/
def evalProjF : Nat → List Selector → List JsonV → Ec → ListRes
  | _, _, [], ec => .ok [] ec
  | 0, _, _ :: _, _ => .div
  | Nat.succ n, rhs, i :: is, ec =>
    match evalChainF n rhs i ec with
    | .ok r ec1 =>
        match evalProjF n rhs is ec1 with
        | .ok vs ec2 => .ok (if r.is_null then vs else r :: vs) ec2
        | .exn => .exn
        | .div => .div
    | .exn => .exn
    | .div => .div

/-- The multi-select-list loop: every child against the same input, all
results kept. -/
def evalMultiF : Nat → List Selector → JsonV → Ec → ListRes
  | _, [], _, ec => .ok [] ec
  | 0, _ :: _, _, _ => .div
  | Nat.succ n, s :: ss, v, ec =>
    match evalF n s v ec with
    | .ok r ec1 =>
        match evalMultiF n ss v ec1 with
        | .ok vs ec2 => .ok (r :: vs) ec2
        | .exn => .exn
        | .div => .div
    | .exn => .exn
    | .div => .div

/-- The multi-select-hash loop: evaluate each keyed child against the
same input. -/
def evalHashF : Nat → List (List Char × Selector) → JsonV → Ec → HashRes
  | _, [], _, ec => .ok [] ec
  | 0, _ :: _, _, _ => .div
  | Nat.succ n, p :: ps, v, ec =>
    match evalF n p.2 v ec with
    | .ok r ec1 =>
        match evalHashF n ps v ec1 with
        | .ok ms ec2 => .ok ((p.1, r) :: ms) ec2
        | .exn => .exn
        | .div => .div
    | .exn => .exn
    | .div => .div

/-- The filter loop: for each element compute the comparator's left
operand with `lhs`, thread the element through the rhs chain, and keep
the element when the comparison is defined and true. -/
def evalFilterF : Nat → CmpK → Selector → List Selector → List JsonV → Ec → ListRes
  | _, _, _, _, [], ec => .ok [] ec
  | 0, _, _, _, _ :: _, _ => .div
  | Nat.succ n, k, lhs, rhs, i :: is, ec =>
    match evalF n lhs i ec with
    | .ok l ec1 =>
        match evalChainF n rhs i ec1 with
        | .ok r ec2 =>
            match applyCmpF n k l r with
            | none => .div
            | some cmpRes =>
                match evalFilterF n k lhs rhs is ec2 with
                | .ok vs ec3 =>
                    .ok (if cmpRes = some true then i :: vs else vs) ec3
                | .exn => .exn
                | .div => .div
        | .exn => .exn
        | .div => .div
    | .exn => .exn
    | .div => .div

/-- The key-extraction of `sort_by`: the key selector applied to each
element, keys paired with their elements.  (The C++ `std::sort`
re-evaluates keys inside its comparator on a schedule the standard leaves
unspecified; this models the one-evaluation-per-element schedule.) -/
def evalKeysF : Nat → Selector → List JsonV → Ec → PairsRes
  | _, _, [], ec => .ok [] ec
  | 0, _, _ :: _, _ => .div
  | Nat.succ n, ks, i :: is, ec =>
    match evalF n ks i ec with
    | .ok k ec1 =>
        match evalKeysF n ks is ec1 with
        | .ok ps ec2 => .ok ((k, i) :: ps) ec2
        | .exn => .exn
        | .div => .div
    | .exn => .exn
    | .div => .div

end

/-! ## The parser state machine (`jmespath_evaluator::evaluate`) -/

/-- The grammar states of `enum class path_state`. -/
inductive PathState : Type where
  | start
  | quoted_string
  | raw_string
  | json_value
  | key_expr
  | val_expr
  | identifier_or_function_expr
  | arg_or_right_paren
  | unquoted_string
  | expression
  | key_val_expr
  | sub_expression
  | number
  | digit
  | bracket_specifier9
  | bracket_specifier
  | multi_select_hash
  | bracket_specifier2
  | bracket_specifier3
  | bracket_specifier4
  | expect_dot
  | expect_right_bracket
  | expect_right_bracket4
  | expect_right_brace
  | expect_colon
  | comparator
  | cmp_lt_or_lte
  | cmp_eq
  | cmp_gt_or_gte
  | cmp_ne
deriving Repr, DecidableEq

/-- An entry of `key_selector_stack_`: an optional key and a selector. -/
structure KeySel where
  key : List Char
  sel : Selector
deriving Repr

/-- A freshly emplaced `key_selector(make_unique_ptr<sub_expression>())`. -/
def emptyKS : KeySel := ⟨[], .sub_expression []⟩

/-- `key_selector_stack_.back()` (the stack is never empty). -/
def ksBack (ks : List KeySel) : KeySel := ks.getLastD emptyKS

/-- Replace `key_selector_stack_.back()`. -/
def ksSetBack (ks : List KeySel) (k : KeySel) : List KeySel := ks.dropLast ++ [k]

/-- `key_selector_stack_.back().selector->add_selector(c)`. -/
def ksAddToBack (ks : List KeySel) (c : Selector) : List KeySel :=
  ksSetBack ks ⟨(ksBack ks).key, addSelector (ksBack ks).sel c⟩

/-- `key_selector_stack_.back() = key_selector(make_unique_ptr<…>(std::move(back().selector)))`:
the top selector is wrapped and the key resets (the `key_selector`
constructor taking a selector leaves the key empty). -/
def ksWrapBack (ks : List KeySel) (f : Selector → Selector) : List KeySel :=
  ksSetBack ks ⟨[], f (ksBack ks).sel⟩

/-- `key_selector_stack_.back().key = std::move(buffer)`. -/
def ksSetBackKey (ks : List KeySel) (key : List Char) : List KeySel :=
  ksSetBack ks ⟨key, (ksBack ks).sel⟩

/-- The default-constructed `slice()` : start 0, no end, step 1. -/
def defaultSlice : Slice := ⟨0, none, 1⟩

/-- The parser's mutable state during `evaluate`. -/
structure PState where
  input : List Char
  pos : Nat
  line : Nat
  col : Nat
  /-- `state_stack_`; the head is the C++ `back()`. -/
  states : List PathState
  buffer : List Char
  /-- `structure_offset_stack_`; the head is the C++ `back()`. -/
  offsets : List Nat
  /-- `key_selector_stack_`; index 0 is the C++ front, pushes append. -/
  ks : List KeySel
  aSlice : Slice
deriving Repr

/-- Outcome of parsing: a terminal error code, an escaped exception
(`Json::parse` failing on a literal), exhausted fuel while the character
loop is still running, a violated `JSONCONS_ASSERT`, or the root
selector. -/
inductive ParseResult : Type where
  | err : ErrC → ParseResult
  | exn : ParseResult
  | more : ParseResult
  | assertViolation : ParseResult
  | ok : Selector → ParseResult
deriving Repr

/-- `[A-Za-z_]`. -/
def isAlphaU (c : Char) : Bool :=
  ('A' ≤ c && c ≤ 'Z') || ('a' ≤ c && c ≤ 'z') || c = '_'

/-- `[0-9]`. -/
def isDigitC (c : Char) : Bool := '0' ≤ c && c ≤ '9'

/-- `[A-Za-z0-9_]`. -/
def isAlnumU (c : Char) : Bool := isDigitC c || isAlphaU c

/-- The space characters handled by `advance_past_space_character`. -/
def isSpaceC (c : Char) : Bool := c = ' ' || c = '\t' || c = '\r' || c = '\n'

/-- Digit-string value (empty or non-digit input fails, as
`jsoncons::detail::to_integer` does). -/
def digitsVal (ds : List Char) : Option Nat :=
  if ds.isEmpty then none
  else
    ds.foldl (fun acc c =>
      match acc with
      | none => none
      | some v => if isDigitC c then some (v * 10 + (c.toNat - '0'.toNat)) else none)
      (some 0)

/-- `jsoncons::detail::to_integer<int64_t>` on the parser's buffer:
an optional minus sign followed by at least one digit.  (Overflow is not
modelled; the integers exercised here are small.) -/
def to_integer (cs : List Char) : Option Int :=
  match cs with
  | '-' :: rest => (digitsVal rest).map (fun v => -(v : Int))
  | _ => (digitsVal cs).map (fun v => (v : Int))

/-- `advance_past_space_character()`. -/
def advanceSpace (st : PState) (c : Char) : PState :=
  if c = ' ' || c = '\t' then { st with pos := st.pos + 1, col := st.col + 1 }
  else if c = '\r' then
    let crlf := decide (st.pos + 1 < st.input.length) && (st.input.getD (st.pos + 1) ' ' == '\n')
    { st with pos := st.pos + (if crlf then 2 else 1), line := st.line + 1, col := 1 }
  else if c = '\n' then { st with pos := st.pos + 1, line := st.line + 1, col := 1 }
  else st

/-- Advance past one consumed character (`++p_; ++column_;`). -/
def adv (st : PState) : PState := { st with pos := st.pos + 1, col := st.col + 1 }

/-- The character list spelling `sort_by`, the single registered
function name. -/
def sortByName : List Char := ['s', 'o', 'r', 't', '_', 'b', 'y']

/-- One iteration of the parser's `while (p_ < end_input_)` loop body:
either the next state, or an early `return` with an error (the
`Json::parse` of a literal is the external model's parser `pj`; its
failure is a thrown exception). -/
def pStep (pj : List Char → Option JsonV) (st : PState) : PState ⊕ ParseResult :=
  let c := st.input.getD st.pos ' '
  match st.states with
  | [] => .inr .exn
  | s0 :: rest =>
    match s0 with
    | .start =>
        .inl { st with states := .expression :: .sub_expression :: rest }
    | .expression =>
        if isSpaceC c then .inl (advanceSpace st c)
        else if c = '"' then
          .inl (adv { st with states := .quoted_string :: .val_expr :: rest })
        else if c = '\'' then
          .inl (adv { st with states := .raw_string :: rest })
        else if c = '`' then
          .inl (adv { st with states := .json_value :: rest })
        else if c = '[' then
          .inl (adv { st with states := .bracket_specifier :: rest })
        else if c = '{' then
          .inl (adv { st with states := .multi_select_hash :: rest })
        else if c = '*' then
          .inl (adv { st with
            ks := ksWrapBack st.ks (fun s => .object_projection s []),
            states := .expect_dot :: s0 :: rest })
        else if isAlphaU c then
          .inl (adv { st with
            states := .unquoted_string :: .identifier_or_function_expr :: rest,
            buffer := st.buffer ++ [c] })
        else .inr (.err .expected_identifier)
    | .key_expr =>
        .inl { st with ks := ksSetBackKey st.ks st.buffer, buffer := [], states := rest }
    | .val_expr =>
        .inl { st with ks := ksAddToBack st.ks (.identifier st.buffer),
                       buffer := [], states := rest }
    | .identifier_or_function_expr =>
        if c = '(' then
          if st.buffer == sortByName then
            .inl (adv { st with
              buffer := [],
              ks := ksSetBack st.ks ⟨[], .function_selector []⟩ ++ [emptyKS],
              offsets := st.ks.length :: st.offsets,
              states := .expression :: .arg_or_right_paren :: rest })
          else .inr (.err .function_name_not_found)
        else
          .inl { st with ks := ksAddToBack st.ks (.identifier st.buffer),
                         buffer := [], states := rest }
    | .arg_or_right_paren =>
        if isSpaceC c then .inl (advanceSpace st c)
        else if c = ',' then
          .inl (adv { st with ks := st.ks ++ [emptyKS],
                              states := .expression :: s0 :: rest })
        else if c = ')' then
          let pos0 := st.offsets.headD 0
          let target := (st.ks.get? (pos0 - 1)).getD emptyKS
          let folded := (st.ks.drop pos0).foldl (fun acc k => addSelector acc k.sel) target.sel
          .inl (adv { st with
            offsets := st.offsets.tail,
            ks := st.ks.take (pos0 - 1) ++ [⟨target.key, folded⟩],
            states := rest })
        else .inl st
    | .quoted_string =>
        if c = '"' then .inl (adv { st with states := rest })
        else if c = '\\' then
          if st.pos + 1 < st.input.length then
            .inl { st with buffer := st.buffer ++ [st.input.getD (st.pos + 1) ' '],
                           pos := st.pos + 2, col := st.col + 2 }
          else .inr (.err .unexpected_end_of_input)
        else .inl (adv { st with buffer := st.buffer ++ [c] })
    | .unquoted_string =>
        if isSpaceC c then .inl (advanceSpace { st with states := rest } c)
        else if isAlnumU c then .inl (adv { st with buffer := st.buffer ++ [c] })
        else .inl { st with states := rest }
    | .raw_string =>
        if c = '\'' then
          .inl (adv { st with ks := ksAddToBack st.ks (.json_value (.str st.buffer)),
                              buffer := [], states := rest })
        else if c = '\\' then .inl (adv st)
        else .inl (adv { st with buffer := st.buffer ++ [c] })
    | .json_value =>
        if c = '`' then
          match pj st.buffer with
          | some j =>
              .inl (adv { st with ks := ksAddToBack st.ks (.json_value j),
                                  buffer := [], states := rest })
          | none => .inr .exn
        else if c = '\\' then .inl st
        else .inl (adv { st with buffer := st.buffer ++ [c] })
    | .number =>
        if c = '-' then
          .inl (adv { st with buffer := st.buffer ++ [c], states := .digit :: rest })
        else .inl { st with states := .digit :: rest }
    | .digit =>
        if isDigitC c then .inl (adv { st with buffer := st.buffer ++ [c] })
        else .inl { st with states := rest }
    | .sub_expression =>
        if isSpaceC c then .inl (advanceSpace st c)
        else if c = '.' then .inl (adv { st with states := .expression :: s0 :: rest })
        else if c = '|' then
          .inl (adv { st with ks := ksWrapBack st.ks (fun s => .pipe_selector s []),
                              states := .expression :: s0 :: rest })
        else if c = '[' || c = '{' then
          .inl { st with states := .expression :: s0 :: rest }
        else .inr (.err .expected_index)
    | .bracket_specifier =>
        if c = '*' then
          .inl (adv { st with ks := ksWrapBack st.ks (fun s => .list_projection s []),
                              states := .bracket_specifier4 :: rest })
        else if c = ']' then
          .inl (adv { st with ks := ksWrapBack st.ks (fun s => .flatten_projection s []),
                              states := rest })
        else if c = '?' then
          .inl (adv { st with offsets := st.ks.length :: st.offsets,
                              ks := st.ks ++ [emptyKS],
                              states := .expression :: .comparator :: rest })
        else if c = ':' then
          .inl (adv { st with states := .number :: .bracket_specifier2 :: rest })
        else if c = '-' || isDigitC c then
          .inl { st with states := .number :: .bracket_specifier9 :: rest }
        else
          .inl { st with
            ks := ksWrapBack st.ks (fun s => .list_projection s []) ++ [emptyKS],
            offsets := st.ks.length :: st.offsets,
            states := .expression :: .expect_right_bracket4 :: rest }
    | .multi_select_hash =>
        if c = '*' || c = ']' || c = '?' || c = ':' || c = '-' || isDigitC c then
          .inl st
        else
          .inl { st with
            ks := ksWrapBack st.ks (fun s => .list_projection s []) ++ [emptyKS],
            offsets := st.ks.length :: st.offsets,
            states := .key_val_expr :: rest }
    | .bracket_specifier9 =>
        if c = ']' then
          if st.buffer.isEmpty then
            .inl (adv { st with ks := ksWrapBack st.ks (fun s => .flatten_projection s []),
                                states := rest })
          else
            match to_integer st.buffer with
            | none => .inr (.err .invalid_number)
            | some r =>
                .inl (adv { st with ks := ksAddToBack st.ks (.index_selector r),
                                    buffer := [], states := rest })
        else if c = ':' then
          if st.buffer.isEmpty then
            .inl (adv { st with states := .number :: .bracket_specifier2 :: rest })
          else
            match to_integer st.buffer with
            | none => .inr (.err .invalid_number)
            | some r =>
                .inl (adv { st with aSlice := { st.aSlice with start_ := r },
                                    buffer := [],
                                    states := .number :: .bracket_specifier2 :: rest })
        else .inr (.err .expected_right_bracket)
    | .bracket_specifier2 =>
        let step1 : Option (Slice × List Char) :=
          if st.buffer.isEmpty then some (st.aSlice, st.buffer)
          else
            match to_integer st.buffer with
            | none => none
            | some r => some ({ st.aSlice with end_ := some r }, [])
        match step1 with
        | none => .inr (.err .invalid_number)
        | some (sl, buf) =>
          if c = ']' then
            .inl (adv { st with ks := ksAddToBack st.ks (.slice_selector sl),
                                aSlice := defaultSlice, buffer := buf, states := rest })
          else if c = ':' then
            .inl (adv { st with aSlice := sl, buffer := buf,
                                states := .number :: .bracket_specifier3 :: rest })
          else .inr (.err .expected_right_bracket)
    | .bracket_specifier3 =>
        let step1 : Option (Slice × List Char) :=
          if st.buffer.isEmpty then some (st.aSlice, st.buffer)
          else
            match to_integer st.buffer with
            | none => none
            | some r => some ({ st.aSlice with step_ := r }, [])
        match step1 with
        | none => .inr (.err .invalid_number)
        | some (sl, _) =>
          if c = ']' then
            .inl (adv { st with ks := ksAddToBack st.ks (.slice_selector sl),
                                aSlice := defaultSlice, buffer := [], states := rest })
          else .inr (.err .expected_right_bracket)
    | .bracket_specifier4 =>
        if c = ']' then .inl (adv { st with states := rest })
        else .inr (.err .expected_right_bracket)
    | .key_val_expr =>
        if isSpaceC c then .inl (advanceSpace st c)
        else if c = '"' then
          .inl (adv { st with states := .quoted_string :: .key_expr :: .expect_colon :: rest })
        else if c = '\'' then
          .inl (adv { st with states := .raw_string :: .expect_colon :: rest })
        else if isAlphaU c then
          .inl (adv { st with
            states := .unquoted_string :: .key_expr :: .expect_colon :: rest,
            buffer := st.buffer ++ [c] })
        else .inr (.err .expected_key)
    | .comparator =>
        if c = '.' then
          .inl (adv { st with states := .expression :: .comparator :: rest })
        else if c = '<' then .inl (adv { st with states := .cmp_lt_or_lte :: rest })
        else if c = '=' then .inl (adv { st with states := .cmp_eq :: rest })
        else if c = '>' then .inl (adv { st with states := .cmp_gt_or_gte :: rest })
        else if c = '!' then .inl (adv { st with states := .cmp_ne :: rest })
        else .inr (.err .expected_comparator)
    | .cmp_lt_or_lte =>
        if c = '=' then
          .inl (adv { st with ks := ksWrapBack st.ks (fun s => .filter_selector .clte s []),
                              states := .expression :: .expect_right_bracket :: rest })
        else
          .inl { st with ks := ksWrapBack st.ks (fun s => .filter_selector .clt s []),
                         states := .expression :: .expect_right_bracket :: rest }
    | .cmp_eq =>
        if c = '=' then
          .inl (adv { st with ks := ksWrapBack st.ks (fun s => .filter_selector .ceq s []),
                              states := .expression :: .expect_right_bracket :: rest })
        else .inr (.err .expected_comparator)
    | .cmp_gt_or_gte =>
        if c = '=' then
          .inl (adv { st with ks := ksWrapBack st.ks (fun s => .filter_selector .cgte s []),
                              states := .expression :: .expect_right_bracket :: rest })
        else
          .inl { st with ks := ksWrapBack st.ks (fun s => .filter_selector .cgt s []),
                         states := .expression :: .expect_right_bracket :: rest }
    | .cmp_ne =>
        if c = '=' then
          .inl (adv { st with ks := ksWrapBack st.ks (fun s => .filter_selector .cne s []),
                              states := .expression :: .expect_right_bracket :: rest })
        else .inr (.err .expected_comparator)
    | .expect_dot =>
        if isSpaceC c then .inl (advanceSpace st c)
        else if c = '.' then .inl (adv { st with states := rest })
        else .inr (.err .expected_dot)
    | .expect_right_bracket =>
        if isSpaceC c then .inl (advanceSpace st c)
        else if c = ']' then
          let pos0 := st.offsets.headD 0
          let p := (st.ks.get? pos0).getD emptyKS
          let folded := (st.ks.drop (pos0 + 1)).foldl (fun acc k => addSelector acc k.sel) p.sel
          let ks1 := st.ks.take pos0
          let q : Selector := .sub_expression [(ksBack ks1).sel, folded]
          .inl (adv { st with offsets := st.offsets.tail,
                              ks := ksSetBack ks1 ⟨[], q⟩,
                              states := rest })
        else .inr (.err .expected_right_bracket)
    | .expect_right_bracket4 =>
        if isSpaceC c then .inl (advanceSpace st c)
        else if c = ',' then
          .inl (adv { st with ks := st.ks ++ [emptyKS],
                              states := .expression :: s0 :: rest })
        else if c = '[' then
          .inl { st with states := .expression :: s0 :: rest }
        else if c = '.' then
          .inl (adv { st with states := .expression :: s0 :: rest })
        else if c = '|' then
          .inl (adv { st with ks := ksWrapBack st.ks (fun s => .pipe_selector s []),
                              states := .expression :: s0 :: rest })
        else if c = ']' then
          let pos0 := st.offsets.headD 0
          let sels := (st.ks.drop pos0).map (fun k => k.sel)
          .inl (adv { st with offsets := st.offsets.tail,
                              ks := ksAddToBack (st.ks.take pos0) (.multi_select_list sels),
                              states := rest })
        else .inr (.err .expected_right_bracket)
    | .expect_right_brace =>
        if isSpaceC c then .inl (advanceSpace st c)
        else if c = ',' then
          .inl (adv { st with ks := st.ks ++ [emptyKS],
                              states := .key_val_expr :: rest })
        else if c = '[' || c = '{' then
          .inl { st with states := .expression :: s0 :: rest }
        else if c = '.' then
          .inl (adv { st with states := .expression :: s0 :: rest })
        else if c = '}' then
          let pos0 := st.offsets.headD 0
          let pairs := (st.ks.drop pos0).map (fun k => (k.key, k.sel))
          .inl (adv { st with offsets := st.offsets.tail,
                              ks := ksAddToBack (st.ks.take pos0) (.multi_select_hash pairs),
                              states := rest })
        else .inr (.err .expected_right_brace)
    | .expect_colon =>
        if isSpaceC c then .inl (advanceSpace st c)
        else if c = ':' then
          .inl (adv { st with states := .expression :: .expect_right_brace :: rest })
        else .inr (.err .expected_colon)

/-- The code after the character loop: flush a trailing unquoted
identifier, report `unexpected_end_of_input` when more than one state
remains, run the two `JSONCONS_ASSERT`s, and hand back the root
selector. -/
def pFinish (st : PState) : ParseResult :=
  let st1 :=
    if 3 ≤ st.states.length ∧ st.states.headD .start = .unquoted_string then
      let states1 := st.states.tail
      match states1.headD .start with
      | .val_expr =>
          { st with states := states1.tail,
                    ks := ksAddToBack st.ks (.identifier st.buffer), buffer := [] }
      | .identifier_or_function_expr =>
          { st with states := states1.tail,
                    ks := ksAddToBack st.ks (.identifier st.buffer), buffer := [] }
      | _ => { st with states := states1 }
    else st
  if 1 < st1.states.length then .err .unexpected_end_of_input
  else if st1.states.length = 1 ∧
      (st1.states.headD .start = .expression ∨ st1.states.headD .start = .sub_expression) then
    .ok (ksBack st1.ks).sel
  else .assertViolation

/-- The parser loop, fueled: `.more` when the fuel runs out while
characters remain (the loop body does not always consume a character, so
the C++ loop can in fact spin forever on some inputs). -/
def pRun (pj : List Char → Option JsonV) : Nat → PState → ParseResult
  | 0, _ => .more
  | Nat.succ n, st =>
    if st.pos < st.input.length then
      match pStep pj st with
      | .inl st1 => pRun pj n st1
      | .inr r => r
    else pFinish st

/-- The parser state at entry of `evaluate`: the constructor pushed the
root `sub_expression` onto `key_selector_stack_`, and `evaluate` pushes
`path_state::start`. -/
def initPState (input : List Char) : PState :=
  { input := input, pos := 0, line := 1, col := 1,
    states := [.start], buffer := [], offsets := [],
    ks := [emptyKS], aSlice := defaultSlice }

/-- Parse a JMESPath expression into its root selector.  `pj` is the
external JSON model's `parse` used for backtick literals. -/
def parseExpr (pj : List Char → Option JsonV) (fuel : Nat) (input : List Char) : ParseResult :=
  pRun pj fuel (initPState input)

/-! ## Auxiliary definitions for the properties -/

/-- A trivial external JSON parser (never consulted: the expressions
below contain no backtick literal). -/
def pjNone : List Char → Option JsonV := fun _ => none

mutual

/-- A selector that contains no JSON-literal, function-call, or
name-expression node anywhere. -/
def litFree : Selector → Bool
  | .sub_expression cs => litFreeList cs
  | .name_expression _ _ => false
  | .list_projection l r => litFree l && litFreeList r
  | .pipe_selector l r => litFree l && litFreeList r
  | .flatten_projection l r => litFree l && litFreeList r
  | .object_projection l r => litFree l && litFreeList r
  | .identifier _ => true
  | .json_value _ => false
  | .index_selector _ => true
  | .slice_selector _ => true
  | .filter_selector _ l r => litFree l && litFreeList r
  | .multi_select_list cs => litFreeList cs
  | .multi_select_hash ps => litFreePairs ps
  | .function_selector _ => false

def litFreeList : List Selector → Bool
  | [] => true
  | c :: cs => litFree c && litFreeList cs

def litFreePairs : List (List Char × Selector) → Bool
  | [] => true
  | p :: ps => litFree p.2 && litFreePairs ps

end

/-- The outputs `std::sort` is permitted to produce with the strict
comparator `lt`: a permutation of the input in which no element is
strictly below its predecessor.  (The C++ standard does not promise
anything about the relative order of equivalent elements.) -/
def cppSortAdmissible (lt : α → α → Bool) (inp out : List α) : Prop :=
  inp.Perm out ∧ out.Chain' (fun a b => lt b a = false)

/-- The comparator lambda of `sort_by`: evaluate the key selector on
both elements and compare the keys with the JSON model's `operator<`
(`fuel` bounds both evaluations; ample for the concrete uses below). -/
def sortByComp (fuel : Nat) (keySel : Selector) (l r : JsonV) : Bool :=
  match evalF fuel keySel l none, evalF fuel keySel r none with
  | .ok k1 _, .ok k2 _ => (jltF fuel k1 k2).getD false
  | _, _ => false

/-! ## Theorems -/

/-- Claim C1: the spec resolves a negative slice start as `max(0, n + start)`
and a present end as `clamp(end ≥ 0 ? end : n + end, 0, n)`.  The code
instead computes `n - start` (resp. `n - end`) for negative components:
at `n = 5`, `start = -2` the code yields `7` where the spec formula
yields `3`, and at `end = -2` the code yields `5` where the spec formula
yields `3`. -/
theorem c1_slice_resolution_code :
    Slice.get_start ⟨-2, none, 1⟩ 5 = 7 ∧ specStartResolved (-2) 5 = 3 ∧
    Slice.get_end ⟨0, some (-2), 1⟩ 5 = 5 ∧ specEndResolved (some (-2)) 5 = 3 ∧
    (7 : Int) ≠ 3 :=
  ⟨by decide, by decide, by decide, by decide, by decide⟩

/-- Claim C2 (counterexample): the claim requires the results of
`[*].x | [0]` and `[*].x[0]` to differ on every input where both are
defined; on `[{"x": [[5]]}]` both are defined (non-null, no error) and
equal (`[[5]]`). -/
theorem c2_counterexample :
    parseExpr pjNone 100 ['[', '*', ']', '.', 'x', ' ', '|', ' ', '[', '0', ']'] =
      .ok (.pipe_selector (.list_projection (.sub_expression []) [.identifier ['x']])
            [.index_selector 0]) ∧
    parseExpr pjNone 100 ['[', '*', ']', '.', 'x', '[', '0', ']'] =
      .ok (.list_projection (.sub_expression []) [.identifier ['x'], .index_selector 0]) ∧
    evalF 100 (.pipe_selector (.list_projection (.sub_expression []) [.identifier ['x']])
            [.index_selector 0])
        (.arr [.obj [(['x'], .arr [.arr [.num 5]])]]) none =
      .ok (.arr [.arr [.num 5]]) none ∧
    evalF 100 (.list_projection (.sub_expression []) [.identifier ['x'], .index_selector 0])
        (.arr [.obj [(['x'], .arr [.arr [.num 5]])]]) none =
      .ok (.arr [.arr [.num 5]]) none ∧
    (JsonV.arr [.arr [.num 5]]).is_null = false :=
  ⟨rfl, rfl, rfl, rfl, rfl⟩

/-- Claim C2 (amended): `[*].x | [0]` parses to a pipe whose lhs is the
list projection and whose rhs chain holds the `[0]` index, so it returns
the first element of the projection's result array; `[*].x[0]` appends
`[0]` to the projection's rhs chain.  The two results differ on some
inputs where both are defined — e.g. on `[{"x": 1}]` the pipe yields `1`
and the fused projection yields `[]` — but not on all of them. -/
theorem c2_amended (pj : List Char → Option JsonV) :
    parseExpr pj 100 ['[', '*', ']', '.', 'x', ' ', '|', ' ', '[', '0', ']'] =
      .ok (.pipe_selector (.list_projection (.sub_expression []) [.identifier ['x']])
            [.index_selector 0]) ∧
    parseExpr pj 100 ['[', '*', ']', '.', 'x', '[', '0', ']'] =
      .ok (.list_projection (.sub_expression []) [.identifier ['x'], .index_selector 0]) ∧
    evalF 100 (.list_projection (.sub_expression []) [.identifier ['x']])
        (.arr [.obj [(['x'], .num 1)]]) none = .ok (.arr [.num 1]) none ∧
    evalF 100 (.pipe_selector (.list_projection (.sub_expression []) [.identifier ['x']])
            [.index_selector 0])
        (.arr [.obj [(['x'], .num 1)]]) none = .ok (.num 1) none ∧
    evalF 100 (.list_projection (.sub_expression []) [.identifier ['x'], .index_selector 0])
        (.arr [.obj [(['x'], .num 1)]]) none = .ok (.arr []) none ∧
    (JsonV.num 1 ≠ JsonV.arr []) :=
  ⟨rfl, rfl, rfl, rfl, rfl, by simp⟩

/-- Claim C3 (counterexample): the claim says the pipe selector threads
the lhs result through the rhs chain for every input type.  On the
object input `{"a": 1}` with an empty rhs chain, threading once would
return the object itself, but the code returns `null` (its
`!lhs.is_array()` guard). -/
theorem c3_counterexample :
    evalF 10 (.pipe_selector (.sub_expression []) []) (.obj [(['a'], .num 1)]) none =
      .ok .null none ∧
    evalF 10 (.sub_expression []) (.obj [(['a'], .num 1)]) none =
      .ok (.obj [(['a'], .num 1)]) none ∧
    evalChainF 10 [] (JsonV.obj [(['a'], .num 1)]) none =
      .ok (.obj [(['a'], .num 1)]) none ∧
    (JsonV.null ≠ JsonV.obj [(['a'], .num 1)]) :=
  ⟨rfl, rfl, rfl, by simp⟩

/-- Claim C3 (amended): the pipe selector evaluates its lhs once; when
the lhs result is an array it threads that result through the rhs chain
exactly once (no per-element iteration), and otherwise it returns `null`
without touching the rhs chain. -/
theorem c3_amended (n : Nat) (lhs : Selector) (rhs : List Selector) (v : JsonV) (ec : Ec) :
    evalF (n + 1) (.pipe_selector lhs rhs) v ec =
      match evalF n lhs v ec with
      | .ok u ec1 => if u.is_array then evalChainF n rhs u ec1 else .ok .null ec1
      | .exn => .exn
      | .div => .div := rfl

/-- Claim C4: the spec demands a parse-time error for a slice step of
zero, but the parser accepts `[::0]` without setting any error code and
builds a `slice_selector` whose step is `0`, for any external JSON
parser. -/
theorem c4_step_zero_parses (pj : List Char → Option JsonV) :
    parseExpr pj 100 ['[', ':', ':', '0', ']'] =
      .ok (.sub_expression [.slice_selector ⟨0, none, 0⟩]) := rfl

/-- Claim C5: `sort_by` checks arity and arrayness as claimed (setting
`invalid_argument` otherwise) and sorts an arena copy by the key
selector, but it calls `std::sort`, not a stable sort: on two elements
with equal keys the swapped order is an admissible `std::sort` output
(a sorted permutation), and it differs from what the claimed stable sort
returns. -/
theorem c5_sort_by_unstable :
    cppSortAdmissible (sortByComp 10 (.identifier ['k']))
        [JsonV.obj [(['k'], .num 0), (['t'], .str ['a'])],
         JsonV.obj [(['k'], .num 0), (['t'], .str ['b'])]]
        [JsonV.obj [(['k'], .num 0), (['t'], .str ['b'])],
         JsonV.obj [(['k'], .num 0), (['t'], .str ['a'])]] ∧
    stableSortSpec (sortByComp 10 (.identifier ['k']))
        [JsonV.obj [(['k'], .num 0), (['t'], .str ['a'])],
         JsonV.obj [(['k'], .num 0), (['t'], .str ['b'])]] =
      [JsonV.obj [(['k'], .num 0), (['t'], .str ['a'])],
       JsonV.obj [(['k'], .num 0), (['t'], .str ['b'])]] ∧
    ([JsonV.obj [(['k'], .num 0), (['t'], .str ['b'])],
      JsonV.obj [(['k'], .num 0), (['t'], .str ['a'])]] ≠
     [JsonV.obj [(['k'], .num 0), (['t'], .str ['a'])],
      JsonV.obj [(['k'], .num 0), (['t'], .str ['b'])]]) ∧
    evalF 20 (.function_selector [.sub_expression []]) (.arr []) none =
      .ok .null (some .invalid_argument) ∧
    evalF 20 (.function_selector [.json_value (.num 1), .sub_expression []]) .null none =
      .ok .null (some .invalid_argument) ∧
    evalF 50 (.function_selector
        [.json_value (.arr [.obj [(['k'], .num 2)], .obj [(['k'], .num 1)]]),
         .identifier ['k']]) .null none =
      .ok (.arr [.obj [(['k'], .num 1)], .obj [(['k'], .num 2)]]) none := by
  refine ⟨⟨List.Perm.swap _ _ _, ?_⟩, ?_, by simp, rfl, rfl, rfl⟩
  · simp [List.chain'_cons]
    rfl
  · rfl

/-- Claim C6: the index selector returns the element for `0 ≤ i < n` and
`-n ≤ i < 0`, and `null` for `i ≥ n` and non-arrays — but for `i < -n`
the claimed `null` is not what happens: the vacuous `(slen+index_) < slen`
guard lets the code call `at()` with a wrapped-around index, which
throws (`.exn`), as at `i = -2` on the one-element array. -/
theorem c6_index_negative_out_of_range :
    evalF 10 (.index_selector (-2)) (.arr [.num 1]) none = .exn ∧
    (EvalRes.exn ≠ EvalRes.ok .null none) ∧
    evalF 10 (.index_selector 0) (.arr [.num 7, .num 8]) none = .ok (.num 7) none ∧
    evalF 10 (.index_selector (-1)) (.arr [.num 7, .num 8]) none = .ok (.num 8) none ∧
    evalF 10 (.index_selector 5) (.arr [.num 7, .num 8]) none = .ok .null none ∧
    evalF 10 (.index_selector 0) (.num 3) none = .ok .null none :=
  ⟨rfl, by simp, rfl, rfl, rfl, rfl⟩

/-- Claim C7 (counterexample): the claim exempts only JSON-literal and
function-call selectors, but a sub-expression (a non-exempt kind) whose
child is a literal returns the literal, not `null`, on the `null`
input. -/
theorem c7_counterexample :
    evalF 10 (.sub_expression [.json_value (.num 5)]) .null none = .ok (.num 5) none ∧
    (JsonV.num 5 ≠ JsonV.null) :=
  ⟨rfl, by simp⟩

/-- Null-propagation on `null` input, proved by induction on the fuel,
jointly for a selector and for a chain of selectors. -/
theorem nullSafeAux : ∀ n : Nat,
    (∀ s : Selector, litFree s = true → sizeOf s ≤ n → ∀ ec : Ec,
        evalF n s .null ec = .ok .null ec) ∧
    (∀ cs : List Selector, litFreeList cs = true → sizeOf cs ≤ n → ∀ ec : Ec,
        evalChainF n cs .null ec = .ok .null ec) := by
  intro n
  induction n with
  | zero =>
      constructor
      · intro s hf hs ec
        exfalso
        cases s <;> simp at hs
      · intro cs hf hs ec
        cases cs with
        | nil => rfl
        | cons c cs' => exfalso; simp at hs
  | succ m ih =>
      obtain ⟨ihS, ihL⟩ := ih
      constructor
      · intro s hf hs ec
        cases s with
        | sub_expression cs =>
            have h1 : litFreeList cs = true := by simpa [litFree] using hf
            have h2 : sizeOf cs ≤ m := by simp at hs; omega
            simpa [evalF] using ihL cs h1 h2 ec
        | name_expression a b => simp [litFree] at hf
        | list_projection l r =>
            simp [litFree] at hf
            have h2 : sizeOf l ≤ m := by simp at hs; omega
            have e1 := ihS l hf.1 h2 ec
            simp [evalF, e1]
        | pipe_selector l r =>
            simp [litFree] at hf
            have h2 : sizeOf l ≤ m := by simp at hs; omega
            have e1 := ihS l hf.1 h2 ec
            simp [evalF, e1, JsonV.is_array]
        | flatten_projection l r =>
            simp [litFree] at hf
            have h2 : sizeOf l ≤ m := by simp at hs; omega
            have e1 := ihS l hf.1 h2 ec
            simp [evalF, e1]
        | object_projection l r =>
            simp [litFree] at hf
            have h2 : sizeOf l ≤ m := by simp at hs; omega
            have e1 := ihS l hf.1 h2 ec
            simp [evalF, e1]
        | identifier a => rfl
        | json_value j => simp [litFree] at hf
        | index_selector i => rfl
        | slice_selector sl => rfl
        | filter_selector k l r => rfl
        | multi_select_list cs => rfl
        | multi_select_hash ps => rfl
        | function_selector args => simp [litFree] at hf
      · intro cs hf hs ec
        cases cs with
        | nil => rfl
        | cons c cs' =>
            simp [litFreeList] at hf
            have s1 : sizeOf c ≤ m := by simp at hs; omega
            have s2 : sizeOf cs' ≤ m := by simp at hs; omega
            have e1 := ihS c hf.1 s1 ec
            have e2 := ihL cs' hf.2 s2 ec
            simp [evalChainF, e1, e2]

/-- Claim C7 (amended): every selector that contains no JSON-literal,
function-call, or name-expression node anywhere — in particular every
identifier, index, slice, filter, multi-select and projection built from
such — maps the `null` input to `null` given sufficient fuel, and leaves
the error-code cell untouched. -/
theorem c7_amended (s : Selector) (h : litFree s = true) (n : Nat) (hn : sizeOf s ≤ n)
    (ec : Ec) : evalF n s .null ec = .ok .null ec :=
  (nullSafeAux n).1 s h hn ec

/-- Claim C7 witness: the amended statement applied to the concrete
selector `[*].x` on input `null`. -/
theorem c7_amended_witness :
    litFree (.list_projection (.sub_expression []) [.identifier ['x']]) = true ∧
    sizeOf (Selector.list_projection (.sub_expression []) [.identifier ['x']]) ≤ 200 ∧
    evalF 200 (.list_projection (.sub_expression []) [.identifier ['x']]) .null none =
      .ok .null none := by
  refine ⟨?h1, ?h2, c7_amended _ ?h1 200 ?h2 none⟩
  case h1 => simp [litFree, litFreeList]
  case h2 => decide

/-- Commuting `filter` past `map`. -/
theorem filter_map_comm {α β : Type} (g : α → β) (p : β → Bool) :
    ∀ l : List α, (l.map g).filter p = (l.filter (fun a => p (g a))).map g := by
  intro l
  induction l with
  | nil => rfl
  | cons x xs ih => by_cases h : p (g x) <;> simp [List.filter_cons, h, ih]

/-- The projection loop visits the elements in order, applies the rhs
chain to each, and keeps exactly the non-null results. -/
theorem evalProjF_chain (rhs : List Selector) (n : Nat) :
    ∀ (xs : List JsonV) (f : Nat → JsonV) (ec : Ec),
      (∀ (j : Nat) (h : j < xs.length) (ec2 : Ec) (m : Nat),
          evalChainF (m + n) rhs (xs.get ⟨j, h⟩) ec2 = .ok (f j) ec2) →
      evalProjF (n + xs.length) rhs xs ec =
        .ok (((List.range xs.length).filter (fun j => !(f j).is_null)).map f) ec := by
  intro xs
  induction xs with
  | nil => intro f ec h; simp [evalProjF]
  | cons x xs' ih =>
      intro f ec h
      have hx : evalChainF (n + xs'.length) rhs x ec = .ok (f 0) ec := by
        rw [Nat.add_comm]; exact h 0 (by simp) ec xs'.length
      have htail := ih (fun j => f (j + 1)) ec
        (fun j hj ec2 m => by
          have := h (j + 1) (by simpa using Nat.succ_lt_succ hj) ec2 m
          simpa using this)
      show evalProjF (Nat.succ (n + xs'.length)) rhs (x :: xs') ec = _
      simp only [evalProjF, hx, htail]
      simp only [List.length_cons]
      rw [List.range_succ_eq_map]
      by_cases h0 : (f 0).is_null
      · simp [List.filter_cons, h0, filter_map_comm, Function.comp]
      · simp [List.filter_cons, h0, filter_map_comm, Function.comp]

/-- Claim C8: a list projection preserves array order and skips the
`null` results of its rhs chain: when the lhs yields the array `xs` and
the rhs chain deterministically yields `f j` on element `j`, the result
array is `f` mapped over exactly the indices (in increasing order) at
which `f` is not null — i.e. its `i`-th element is `f (σ i)` for the
increasing enumeration `σ` of the non-null indices. -/
theorem c8_projection_order (lhs : Selector) (rhs : List Selector) (v : JsonV)
    (ec ec1 : Ec) (n : Nat) (xs : List JsonV) (f : Nat → JsonV)
    (hlhs : ∀ m : Nat, evalF (m + n) lhs v ec = .ok (.arr xs) ec1)
    (hrhs : ∀ (j : Nat) (h : j < xs.length) (ec2 : Ec) (m : Nat),
        evalChainF (m + n) rhs (xs.get ⟨j, h⟩) ec2 = .ok (f j) ec2) :
    evalF (n + xs.length + 1) (.list_projection lhs rhs) v ec =
      .ok (.arr (((List.range xs.length).filter (fun j => !(f j).is_null)).map f)) ec1 := by
  have h1 : evalF (n + xs.length) lhs v ec = .ok (.arr xs) ec1 := by
    rw [Nat.add_comm]; exact hlhs xs.length
  have h2 := evalProjF_chain rhs n xs f ec1 hrhs
  show evalF (Nat.succ (n + xs.length)) (.list_projection lhs rhs) v ec = _
  simp only [evalF, h1, h2]

/-- Claim C8 witness: the projection of `.x` over
`[{"x":1}, {}, {"x":2}]` keeps order and drops the null produced by the
keyless middle element. -/
theorem c8_projection_order_witness :
    evalF 6 (.list_projection
        (.json_value (.arr [.obj [(['x'], .num 1)], .obj [], .obj [(['x'], .num 2)]]))
        [.identifier ['x']])
      .null none = .ok (.arr [.num 1, .num 2]) none := by
  have h := c8_projection_order
      (.json_value (.arr [.obj [(['x'], .num 1)], .obj [], .obj [(['x'], .num 2)]]))
      [.identifier ['x']] .null none none 2
      [.obj [(['x'], .num 1)], .obj [], .obj [(['x'], .num 2)]]
      (fun j => if j = 0 then .num 1 else if j = 1 then .null else .num 2)
      (fun _ => rfl)
      (fun j hj ec2 m => by
        simp only [List.length_cons, List.length_nil] at hj
        interval_cases j <;> rfl)
  exact h

/-- With a zero step the forward slice loop never leaves its range:
whatever the fuel, it is exhausted. -/
theorem sliceFwdF_zero_step : ∀ (n : Nat) (j e : Int), j < e → sliceFwdF n j e 0 = none := by
  intro n
  induction n with
  | zero => intro j e h; simp [sliceFwdF, h]
  | succ m ih =>
      intro j e h
      have := ih j e h
      simp [sliceFwdF, h, this]

/-- With a positive step the forward slice loop finishes within
`(e - j).toNat` iterations. -/
theorem sliceFwdF_term : ∀ (k : Nat) (j e step : Int), 0 < step → (e - j).toNat ≤ k →
    ∃ l, sliceFwdF k j e step = some l := by
  intro k
  induction k with
  | zero =>
      intro j e step hs hk
      have : ¬ j < e := by omega
      exact ⟨[], by simp [sliceFwdF, this]⟩
  | succ m ih =>
      intro j e step hs hk
      by_cases h : j < e
      · have hk2 : (e - (j + step)).toNat ≤ m := by omega
        obtain ⟨l, hl⟩ := ih (j + step) e step hs hk2
        exact ⟨j :: l, by simp [sliceFwdF, h, hl]⟩
      · exact ⟨[], by simp [sliceFwdF, h]⟩

/-- With a negative step the backward slice loop finishes within
`(j - s + 1).toNat` iterations. -/
theorem sliceBwdF_term : ∀ (k : Nat) (j s step : Int), step < 0 → (j - s + 1).toNat ≤ k →
    ∃ l, sliceBwdF k j s step = some l := by
  intro k
  induction k with
  | zero =>
      intro j s step hs hk
      have : ¬ s ≤ j := by omega
      exact ⟨[], by simp [sliceBwdF, this]⟩
  | succ m ih =>
      intro j s step hs hk
      by_cases h : s ≤ j
      · have hk2 : (j + step - s + 1).toNat ≤ m := by omega
        obtain ⟨l, hl⟩ := ih (j + step) s step hs hk2
        exact ⟨j :: l, by simp [sliceBwdF, h, hl]⟩
      · exact ⟨[], by simp [sliceBwdF, h]⟩

/-- Claim C9: slice evaluation terminates on every array whenever the
step is non-zero (some fuel suffices and an array is returned); with the
step `0` that the parser accepts, and a resolved range with
`start < end`, the forward loop adds `0` to its index forever and the
evaluation exhausts every fuel. -/
theorem c9_slice_termination (sl : Slice) (xs : List JsonV) (ec : Ec) :
    (sl.step_ ≠ 0 → ∃ n vs, evalF n (.slice_selector sl) (.arr xs) ec = .ok (.arr vs) ec) ∧
    (sl.step_ = 0 → sl.get_start xs.length < sl.get_end xs.length →
      ∀ n, evalF n (.slice_selector sl) (.arr xs) ec = .div) := by
  constructor
  · intro hs
    rcases lt_or_gt_of_ne hs with hneg | hpos
    · have hnn : ¬ 0 ≤ sl.step := by simp [Slice.step]; omega
      obtain ⟨l, hl⟩ := sliceBwdF_term
        ((sl.get_end xs.length - 1 - sl.get_start xs.length + 1).toNat)
        (sl.get_end xs.length - 1) (sl.get_start xs.length) sl.step hneg (le_refl _)
      refine ⟨(sl.get_end xs.length - 1 - sl.get_start xs.length + 1).toNat + 1,
              l.map (atIdx xs), ?_⟩
      simp only [evalF, hnn, if_false, hl]
    · have hnn : 0 ≤ sl.step := by simp [Slice.step]; omega
      obtain ⟨l, hl⟩ := sliceFwdF_term
        ((sl.get_end xs.length - sl.get_start xs.length).toNat)
        (sl.get_start xs.length) (sl.get_end xs.length) sl.step hpos (le_refl _)
      refine ⟨(sl.get_end xs.length - sl.get_start xs.length).toNat + 1,
              l.map (atIdx xs), ?_⟩
      simp only [evalF, hnn, if_true, hl]
  · intro hz hlt n
    match n with
    | 0 => rfl
    | Nat.succ m =>
        have hdiv := sliceFwdF_zero_step m (sl.get_start xs.length) (sl.get_end xs.length) hlt
        simp [evalF, Slice.step, hz, hdiv]

/-- Claim C9 witness: on `[1, 2]`, the slice `[::0]` exhausts every
fuel, while the slice `[::1]` terminates with an array. -/
theorem c9_slice_termination_witness :
    (∀ n, evalF n (.slice_selector ⟨0, none, 0⟩) (.arr [.num 1, .num 2]) none = .div) ∧
    (∃ n vs, evalF n (.slice_selector ⟨0, none, 1⟩) (.arr [.num 1, .num 2]) none =
      .ok (.arr vs) none) :=
  ⟨fun n => (c9_slice_termination ⟨0, none, 0⟩ [.num 1, .num 2] none).2 (by decide)
      (by decide) n,
   (c9_slice_termination ⟨0, none, 1⟩ [.num 1, .num 2] none).1 (by decide)⟩

/-- Claim C10: on the empty expression the parser loop never runs, no
error code is set (in particular not `unexpected_end_of_input`, since
exactly one state remains), and the final assertion that the remaining
state is `expression` or `sub_expression` is violated — the stack still
holds the initial `start` — so no JSON result is returned. -/
theorem c10_empty_expression (pj : List Char → Option JsonV) (n : Nat) :
    parseExpr pj (n + 1) [] = .assertViolation ∧
    (∀ e : ErrC, ParseResult.assertViolation ≠ ParseResult.err e) :=
  ⟨rfl, fun _ => by simp⟩
